import Mathlib

/-!
# Shallow embedding of `src/lsh.c` (LSH shell with authentication wrapper)

This file embeds the C source of the repository in Lean 4 and proves the
spec claims about it.  Modelling conventions:

* `stdin` is a finite `List Char`; `getchar` at an empty list is `EOF`.
* A call to `exit(code)` is modelled by an `ExitCode`-valued error of
  `Except`, or by an explicit outcome constructor.
* `malloc`/`realloc` success is an oracle `Nat → Bool`, indexed by the
  allocation count inside one call (index 0 is the initial `malloc`).
  A C `realloc` preserves the already-written contents, so the model
  carries the written prefix of the buffer across growth unchanged.
* `fork`/`execvp`/`waitpid` results are oracles (`SpawnBehavior`,
  `WaitStatus` lists), since they depend on the operating system.
* Output is collected in a `ShellState` (current working directory,
  stdout, stderr); `perror` prints an errno-dependent message starting
  with the given tag, modelled as one abstract string.
-/

namespace Lsh

/-- Process exit codes: `EXIT_SUCCESS` / `EXIT_FAILURE`. -/
inductive ExitCode
  | success
  | failure
deriving DecidableEq, Repr

/-- Observable shell state: working directory and collected output. -/
structure ShellState where
  cwd : String
  stdoutOut : List String
  stderrOut : List String
deriving DecidableEq, Repr

def addStdout (st : ShellState) (s : String) : ShellState :=
  { st with stdoutOut := st.stdoutOut ++ [s] }

def addStderr (st : ShellState) (s : String) : ShellState :=
  { st with stderrOut := st.stderrOut ++ [s] }

/-! ## Line Reader: `lsh_read_line` (src/lsh.c lines 184-221) -/

/-- The constant `#define LSH_RL_BUFSIZE 1024`. -/
def LSH_RL_BUFSIZE : Nat := 1024

/-- The `while (1)` body of `lsh_read_line`.  `buffer` is the written
prefix (length `position`), `bufsize` the current capacity, `ai` the
index of the next allocation in the oracle `allocOk`.
`.error .success` models `exit(EXIT_SUCCESS)` at `EOF`, `.error .failure`
models `exit(EXIT_FAILURE)` on a failed `realloc`; `.ok (line, rest)`
returns the characters before the `\n` terminator together with the
unread remainder of stdin. -/
def lsh_read_line_loop (allocOk : Nat → Bool) : Nat → List Char → Nat → Nat →
    List Char → Except ExitCode (List Char × List Char)
  | _, [], _, _, _ => .error .success
  | ai, c :: rest, bufsize, position, buffer =>
    if c = '\n' then
      .ok (buffer, rest)
    else
      let buffer' := buffer ++ [c]
      let position' := position + 1
      if position' ≥ bufsize then
        if allocOk ai then
          lsh_read_line_loop allocOk (ai + 1) rest (bufsize + LSH_RL_BUFSIZE) position' buffer'
        else .error .failure
      else
        lsh_read_line_loop allocOk ai rest bufsize position' buffer'

/-- Function `lsh_read_line`: initial `malloc` of `LSH_RL_BUFSIZE` chars (allocation
index 0), then the read loop. -/
def lsh_read_line (allocOk : Nat → Bool) (input : List Char) :
    Except ExitCode (List Char × List Char) :=
  if allocOk 0 then lsh_read_line_loop allocOk 1 input LSH_RL_BUFSIZE 0 []
  else .error .failure

/-! ## Tokenizer: `lsh_split_line` (src/lsh.c lines 223-261) -/

/-- The constant `#define LSH_TOK_BUFSIZE 64`. -/
def LSH_TOK_BUFSIZE : Nat := 64

/-- The delimiter set `#define LSH_TOK_DELIM " \t\r\n\a"`. -/
def LSH_TOK_DELIM : List Char := [' ', '\t', '\r', '\n', '\x07']

def isDelim (c : Char) : Bool := LSH_TOK_DELIM.contains c

/-- The token stream produced by the `strtok(line, LSH_TOK_DELIM)` /
`strtok(NULL, LSH_TOK_DELIM)` loop: maximal runs of non-delimiter
characters, in order.  `cur` is the (reversed) run being accumulated. -/
def strtokAux : List Char → List Char → List (List Char)
  | [], cur => if cur.isEmpty then [] else [cur.reverse]
  | c :: rest, cur =>
    if isDelim c then
      if cur.isEmpty then strtokAux rest [] else cur.reverse :: strtokAux rest []
    else strtokAux rest (c :: cur)

def strtokAll (line : List Char) : List (List Char) := strtokAux line []

/-- The `position >= bufsize` growth bookkeeping of the token-pointer
array in `lsh_split_line`: one step per token stored; on growth,
`realloc` consults the allocation oracle and a failure is
`exit(EXIT_FAILURE)`. -/
def splitAllocLoop (allocOk : Nat → Bool) : List (List Char) → Nat → Nat → Nat →
    Except ExitCode Unit
  | [], _, _, _ => .ok ()
  | _ :: rest, position, bufsize, ai =>
    let position' := position + 1
    if position' ≥ bufsize then
      if allocOk ai then splitAllocLoop allocOk rest position' (bufsize + LSH_TOK_BUFSIZE) (ai + 1)
      else .error .failure
    else splitAllocLoop allocOk rest position' bufsize ai

/-- Function `lsh_split_line`: initial `malloc` of the token array (allocation
index 0), the `strtok` loop with its growth checks, and the resulting
null-terminated token array, as a `List String`. -/
def lsh_split_line (allocOk : Nat → Bool) (line : List Char) :
    Except ExitCode (List String) :=
  if allocOk 0 then
    match splitAllocLoop allocOk (strtokAll line) 0 LSH_TOK_BUFSIZE 1 with
    | .ok () => .ok ((strtokAll line).map (fun t => String.mk t))
    | .error e => .error e
  else .error .failure

/-! ## Builtins (src/lsh.c lines 46-111) -/

/-- A `perror("lsh")` call prints "lsh: " followed by the errno message; the
message depends on the operating system, so it is modelled as one
abstract stderr string. -/
def perror_lsh : String := "lsh: <system error message>"

/-- The `fprintf(stderr, ...)` message of `lsh_cd` without a second
argument. -/
def cd_usage_err : String := "lsh: expected argument to \"cd\"\n"

/-- Builtin `lsh_cd`: `args[1] == NULL` means the argument list has no second
entry.  `chdir` success is modelled by the filesystem oracle
`dirExists`; on failure `perror("lsh")` writes to stderr.  Always
returns 1. -/
def lsh_cd (dirExists : String → Bool) (args : List String) (st : ShellState) :
    Int × ShellState :=
  match args.get? 1 with
  | none => (1, addStderr st cd_usage_err)
  | some d =>
    if dirExists d then (1, { st with cwd := d })
    else (1, addStderr st perror_lsh)

/-- The table `char *builtin_str[] = {"cd", "help", "exit"}`. -/
def builtin_str : List String := ["cd", "help", "exit"]

/-- The stdout lines printed by `lsh_help`: three header lines, one
`"  %s\n"` line per entry of `builtin_str`, and the closing line. -/
def help_banner : List String :=
  ["Stephen Brennan's LSH\n",
   "Type program names and arguments, and hit enter.\n",
   "The following are built in:\n"] ++
  builtin_str.map (fun s => "  " ++ s ++ "\n") ++
  ["Use the man command for information on other programs.\n"]

/-- Builtin `lsh_help`: prints the banner, always returns 1; arguments unused. -/
def lsh_help (_args : List String) (st : ShellState) : Int × ShellState :=
  (1, { st with stdoutOut := st.stdoutOut ++ help_banner })

/-- Builtin `lsh_exit`: always returns 0, to terminate execution. -/
def lsh_exit (_args : List String) (_st : ShellState) : Int × ShellState :=
  (0, _st)

/-- The table `int (*builtin_func[])(char **) = {&lsh_cd, &lsh_help, &lsh_exit}`,
with the filesystem oracle threaded to `lsh_cd`. -/
def builtin_func (dirExists : String → Bool) :
    List (List String → ShellState → Int × ShellState) :=
  [lsh_cd dirExists, lsh_help, lsh_exit]

/-! ## Process Launcher: `lsh_launch` (src/lsh.c lines 118-141) -/

/-- One `waitpid(pid, &status, WUNTRACED)` observation of the child. -/
inductive WaitStatus
  | exited (code : Nat)
  | signaled (sig : Nat)
  | stopped (sig : Nat)
deriving DecidableEq, Repr

/-- The macro `WIFEXITED(status)`. -/
def WIFEXITED : WaitStatus → Bool
  | .exited _ => true
  | _ => false

/-- The macro `WIFSIGNALED(status)`. -/
def WIFSIGNALED : WaitStatus → Bool
  | .signaled _ => true
  | _ => false

/-- The parent's `do { waitpid(...); } while (!WIFEXITED(status) &&
!WIFSIGNALED(status))` loop over the sequence of statuses the child will
produce.  `none` means the sequence never reaches a terminal state and
the loop never returns. -/
def waitLoop : List WaitStatus → Option WaitStatus
  | [] => none
  | s :: rest => if !WIFEXITED s && !WIFSIGNALED s then waitLoop rest else some s

/-- How the `fork`/`execvp` of one `lsh_launch` call turns out. -/
inductive SpawnBehavior
  /-- `fork()` returned a negative pid. -/
  | forkFailed
  /-- `fork` succeeded but `execvp` failed in the child: the child
  prints `perror("lsh")` on the shared stderr and does
  `exit(EXIT_FAILURE)`; the parent's wait sees that exit. -/
  | execFailed
  /-- The program ran; the parent's successive `waitpid` calls observe
  `waits`. -/
  | ran (waits : List WaitStatus)
deriving DecidableEq, Repr

/-- Function `lsh_launch`: fork, child exec (or exec-failure report), parent wait
loop.  Always returns 1 when it returns; `none` models a parent blocked
forever in `waitpid`. -/
def lsh_launch (spawn : SpawnBehavior) (_args : List String) (st : ShellState) :
    Option (Int × ShellState) :=
  match spawn with
  | .forkFailed => some (1, addStderr st perror_lsh)
  | .execFailed =>
    let st' := addStderr st perror_lsh
    (waitLoop [WaitStatus.exited 1]).map (fun _ => (1, st'))
  | .ran waits => (waitLoop waits).map (fun _ => (1, st))

/-! ## Dispatcher: `lsh_execute` (src/lsh.c lines 148-164) -/

/-- Function `lsh_execute`: `args[0] == NULL` returns 1; otherwise the first
`builtin_str` entry equal to `args[0]` (scanned in order) handles the
call; otherwise `lsh_launch`. -/
def lsh_execute (dirExists : String → Bool) (spawn : SpawnBehavior)
    (args : List String) (st : ShellState) : Option (Int × ShellState) :=
  match args.head? with
  | none => some (1, st)
  | some cmd =>
    match (builtin_str.zip (builtin_func dirExists)).find? (fun p => p.1 == cmd) with
    | some p => some (p.2 args st)
    | none => lsh_launch spawn args st

/-! ## Interactive Loop: `lsh_loop` (src/lsh.c lines 266-281)

Each iteration prints the `"> "` prompt, reads one line, splits it and
executes it, and repeats `while (status)`.  A `fork`/`exit` of
`lsh_read_line` or `lsh_split_line` ends the whole process with that
code; when the loop falls out on `status == 0`, `main` returns
`EXIT_SUCCESS`, folded here into the `.success` result.  The oracles
take the iteration number first, so each iteration has its own
allocation/spawn behaviour.  Every iteration consumes at least the line
terminator from stdin, so `input.length + 1` fuel always suffices
(`lsh_loop_fuel_sufficient` below); `none` can only arise from a parent
blocked forever in `waitpid`. -/

def lsh_loop_fuel (allocOkLine allocOkTok : Nat → Nat → Bool)
    (dirExists : String → Bool) (spawn : Nat → SpawnBehavior) :
    Nat → Nat → List Char → ShellState → Option (ExitCode × ShellState)
  | 0, _, _, _ => none
  | fuel + 1, iter, input, st =>
    let st1 := addStdout st "> "
    match lsh_read_line (allocOkLine iter) input with
    | .error code => some (code, st1)
    | .ok (line, rest) =>
      match lsh_split_line (allocOkTok iter) line with
      | .error code => some (code, st1)
      | .ok args =>
        match lsh_execute dirExists (spawn iter) args st1 with
        | none => none
        | some (status, st2) =>
          if status = 0 then some (.success, st2)
          else lsh_loop_fuel allocOkLine allocOkTok dirExists spawn fuel (iter + 1) rest st2

def lsh_loop (allocOkLine allocOkTok : Nat → Nat → Bool)
    (dirExists : String → Bool) (spawn : Nat → SpawnBehavior)
    (input : List Char) (st : ShellState) : Option (ExitCode × ShellState) :=
  lsh_loop_fuel allocOkLine allocOkTok dirExists spawn (input.length + 1) 0 input st

/-! ## Authentication wrapper (src/lsh.c lines 283-509) -/

/-- The constant `#define MAX_LOGIN 1`. -/
def MAX_LOGIN : Nat := 1

/-- Result of a wrapper routine that may `exit` instead of returning. -/
inductive GateResult
  | exitedEarly (c : ExitCode)
  | returned (v : Int)
deriving DecidableEq, Repr

/-- Function `white_list(ip_addr)`: `listFile` is the content of the file
`list` as newline-stripped lines (`none` when `fopen` fails, which
prints and does `exit(0)`).  Returns 0 on the first line equal to
`ip_addr`, else logs the denial and returns 1. -/
def white_list (listFile : Option (List String)) (ip_addr : String) : GateResult :=
  match listFile with
  | none => .exitedEarly .success
  | some lines => if lines.contains ip_addr then .returned 0 else .returned 1

/-- Function `check_logon(ip_addr)`: `procLshCount` is the number of `/proc`
entries whose status name is "lsh" (`none` when `opendir("/proc")`
fails, which returns -1).  Returns 1 as soon as the count reaches
`MAX_LOGIN + 1`, else 0. -/
def check_logon (procLshCount : Option Nat) : Int :=
  match procLshCount with
  | none => -1
  | some n => if n ≥ MAX_LOGIN + 1 then 1 else 0

/-- The password obfuscation of `login`: each input character `c`
contributes the decimal rendering of `c - 1` followed by the decimal
rendering of `46 - 1`, concatenated by the `sprintf("%s%d", ...)` loop. -/
def enc_str_pw (input_pw : List Char) : String :=
  String.join (input_pw.map (fun c =>
    toString ((c.toNat : Int) - 1) ++ toString (46 - 1 : Int)))

/-- Function `login(ip_addr)`: compares the stored id with the typed id and the
stored (obfuscated) password with the obfuscation of the typed
password; on mismatch logs the failure and does `exit(0)`, on match
logs the login and returns.  (The log file writes are I/O and not
modelled.) -/
def login (data_id data_pw input_id : String) (input_pw : List Char) : GateResult :=
  if data_id = input_id ∧ data_pw = enc_str_pw input_pw then .returned 0
  else .exitedEarly .success

/-! ## `main` (src/lsh.c lines 517-549) -/

/-- Whether `main` reached `lsh_loop`, and with what result. -/
inductive MainOutcome
  | preLoopExit (c : ExitCode)
  | loopRun (r : Option (ExitCode × ShellState))
deriving DecidableEq, Repr

/-- Function `main`: `white_list`, then `exit(0)` if it returned 1; then
`check_logon`, then `exit(0)` if it returned 1; then `login` (which
exits itself on failure); only then `lsh_loop`. -/
def main_model (listFile : Option (List String)) (client_ip : String)
    (procLshCount : Option Nat)
    (data_id data_pw input_id : String) (input_pw : List Char)
    (allocOkLine allocOkTok : Nat → Nat → Bool) (dirExists : String → Bool)
    (spawn : Nat → SpawnBehavior) (input : List Char) (st : ShellState) :
    MainOutcome :=
  match white_list listFile client_ip with
  | .exitedEarly c => .preLoopExit c
  | .returned ipResult =>
    if ipResult = 1 then .preLoopExit .success
    else
      if check_logon procLshCount = 1 then .preLoopExit .success
      else
        match login data_id data_pw input_id input_pw with
        | .exitedEarly c => .preLoopExit c
        | .returned _ =>
          .loopRun (lsh_loop allocOkLine allocOkTok dirExists spawn input st)

/-! ## Lemmas about the Line Reader -/

/-- With every allocation succeeding, the read loop returns the
accumulated buffer followed by the characters before the first `\n`
(and the rest of stdin after it), whatever the capacity bookkeeping;
at end-of-stream with no `\n` it exits with `EXIT_SUCCESS`. -/
theorem lsh_read_line_loop_allTrue (input : List Char) :
    ∀ ai bufsize position buffer,
    lsh_read_line_loop (fun _ => true) ai input bufsize position buffer =
      if '\n' ∈ input then
        .ok (buffer ++ input.takeWhile (fun c => c != '\n'),
             (input.dropWhile (fun c => c != '\n')).tail)
      else .error .success := by
  induction input with
  | nil => intro ai bufsize position buffer; simp [lsh_read_line_loop]
  | cons c rest ih =>
    intro ai bufsize position buffer
    by_cases hc : c = '\n'
    · subst hc
      simp [lsh_read_line_loop, List.takeWhile_cons, List.dropWhile_cons]
    · have hne : ('\n' ∈ c :: rest) = ('\n' ∈ rest) := by
        simp only [List.mem_cons, eq_iff_iff, or_iff_right_iff_imp]
        exact fun h => (hc h.symm).elim
      have hb : (c != '\n') = true := by simp [hc]
      simp only [lsh_read_line_loop, if_neg hc, List.takeWhile_cons,
        List.dropWhile_cons, hb, if_true, hne]
      split
      · rw [ih]
        by_cases hm : '\n' ∈ rest <;> simp [hm, List.append_assoc]
      · rw [ih]
        by_cases hm : '\n' ∈ rest <;> simp [hm, List.append_assoc]

/-- Running `lsh_read_line` with no allocation failure: the exact characters up
to (excluding) the `\n` terminator, or a clean `EXIT_SUCCESS` exit at
end-of-stream. -/
theorem lsh_read_line_allTrue (input : List Char) :
    lsh_read_line (fun _ => true) input =
      if '\n' ∈ input then
        .ok (input.takeWhile (fun c => c != '\n'),
             (input.dropWhile (fun c => c != '\n')).tail)
      else .error .success := by
  rw [lsh_read_line, if_pos rfl, lsh_read_line_loop_allTrue]
  simp

/-- A successful read consumes the line and its terminator, so the rest
of stdin is strictly shorter than the input. -/
theorem lsh_read_line_loop_rest_lt (allocOk : Nat → Bool) (input : List Char) :
    ∀ ai bufsize position buffer l rest,
    lsh_read_line_loop allocOk ai input bufsize position buffer = .ok (l, rest) →
    rest.length < input.length := by
  induction input with
  | nil =>
    intro ai bufsize position buffer l rest h
    simp [lsh_read_line_loop] at h
  | cons c cs ih =>
    intro ai bufsize position buffer l rest h
    rw [lsh_read_line_loop] at h
    by_cases hc : c = '\n'
    · rw [if_pos hc] at h
      cases h
      simp [List.length_cons, Nat.lt_succ_self]
    · rw [if_neg hc] at h
      simp only at h
      split at h
      · split at h
        · exact Nat.lt_trans (ih _ _ _ _ _ _ h) (Nat.lt_succ_self _)
        · cases h
      · exact Nat.lt_trans (ih _ _ _ _ _ _ h) (Nat.lt_succ_self _)

theorem lsh_read_line_rest_lt (allocOk : Nat → Bool) (input : List Char)
    (l rest : List Char) (h : lsh_read_line allocOk input = .ok (l, rest)) :
    rest.length < input.length := by
  rw [lsh_read_line] at h
  split at h
  · exact lsh_read_line_loop_rest_lt allocOk input _ _ _ _ _ _ h
  · cases h

/-- If the capacity will be reached by `pre.length` more non-newline
characters and the allocation oracle refuses the growth `realloc`, the
read loop does `exit(EXIT_FAILURE)`. -/
theorem lsh_read_line_loop_growth_fail (allocOk : Nat → Bool) (pre : List Char) :
    ∀ rest ai bufsize position buffer,
    bufsize = position + pre.length → pre ≠ [] → '\n' ∉ pre →
    allocOk ai = false →
    lsh_read_line_loop allocOk ai (pre ++ rest) bufsize position buffer =
      .error .failure := by
  induction pre with
  | nil => intro rest ai bufsize position buffer _ hne _ _; exact absurd rfl hne
  | cons c cs ih =>
    intro rest ai bufsize position buffer hb _ hnl hfail
    have hc : c ≠ '\n' := fun h => hnl (h ▸ List.mem_cons_self c cs)
    rw [List.cons_append, lsh_read_line_loop, if_neg hc]
    simp only
    cases cs with
    | nil =>
      have h1 : bufsize = position + 1 := by simpa using hb
      rw [if_pos (by omega), hfail]
      simp
    | cons d ds =>
      simp only [List.length_cons] at hb
      have hlt : ¬ position + 1 ≥ bufsize := by omega
      rw [if_neg hlt]
      exact ih rest ai bufsize (position + 1) _
        (by simp only [List.length_cons]; omega) (by simp)
        (fun h => hnl (List.mem_cons_of_mem c h)) hfail

/-! ## Lemmas about the Interactive Loop fuel -/

/-- One-step unfolding of `lsh_loop_fuel` at positive fuel. -/
theorem lsh_loop_fuel_succ (aL aT : Nat → Nat → Bool) (d : String → Bool)
    (sp : Nat → SpawnBehavior) (fuel iter : Nat) (input : List Char)
    (st : ShellState) :
    lsh_loop_fuel aL aT d sp (fuel + 1) iter input st =
      (match lsh_read_line (aL iter) input with
       | .error code => some (code, addStdout st "> ")
       | .ok (line, rest) =>
         match lsh_split_line (aT iter) line with
         | .error code => some (code, addStdout st "> ")
         | .ok args =>
           match lsh_execute d (sp iter) args (addStdout st "> ") with
           | none => none
           | some (status, st2) =>
             if status = 0 then some (.success, st2)
             else lsh_loop_fuel aL aT d sp fuel (iter + 1) rest st2) := rfl

/-- Any fuel beyond the length of the remaining stdin gives the same
result: each iteration consumes at least the line terminator, so the
`lsh_loop` wrapper's `input.length + 1` is never exhausted and the fuel
is pure bookkeeping, not an observable bound. -/
theorem lsh_loop_fuel_sufficient (aL aT : Nat → Nat → Bool) (d : String → Bool)
    (sp : Nat → SpawnBehavior) :
    ∀ fuel1 fuel2 iter (input : List Char) st,
    input.length < fuel1 → input.length < fuel2 →
    lsh_loop_fuel aL aT d sp fuel1 iter input st =
      lsh_loop_fuel aL aT d sp fuel2 iter input st := by
  intro fuel1
  induction fuel1 with
  | zero => intro fuel2 iter input st h1 _; omega
  | succ f1 ih =>
    intro fuel2 iter input st h1 h2
    cases fuel2 with
    | zero => omega
    | succ f2 =>
      rw [lsh_loop_fuel_succ, lsh_loop_fuel_succ]
      split
      next code heq => rfl
      next line rest heq =>
        have hlt := lsh_read_line_rest_lt (aL iter) input line rest heq
        split
        next code2 heq2 => rfl
        next args heq2 =>
          split
          next heq3 => rfl
          next status st2 heq3 =>
            by_cases h0 : status = 0
            · simp [h0]
            · simp only [if_neg h0]
              exact ih f2 (iter + 1) rest st2 (by omega) (by omega)

/-! ## Claim C1 -/

/-- C1: for every input line, whatever its length relative to the
initial 1024-char capacity, `lsh_read_line` returns exactly the
characters before the line terminator (terminator excluded), with
nothing lost across buffer growth: the result is exactly
`takeWhile (· ≠ newline)` of stdin, and stdin resumes after the
terminator. -/
theorem C1_read_line_exact (input : List Char) (h : '\n' ∈ input) :
    lsh_read_line (fun _ => true) input =
      .ok (input.takeWhile (fun c => c != '\n'),
           (input.dropWhile (fun c => c != '\n')).tail) := by
  rw [lsh_read_line_allTrue, if_pos h]

/-- Witness for C1: a line of 1500 characters — well past the initial
1024-char capacity, so the buffer grew — comes back intact. -/
theorem C1_read_line_exact_witness :
    '\n' ∈ (List.replicate 1500 'a' ++ ['\n']) ∧
    lsh_read_line (fun _ => true) (List.replicate 1500 'a' ++ ['\n']) =
      .ok (List.replicate 1500 'a', []) := by
  have hmem : '\n' ∈ (List.replicate 1500 'a' ++ ['\n']) :=
    List.mem_append_right _ (List.mem_singleton.mpr rfl)
  refine ⟨hmem, ?_⟩
  rw [C1_read_line_exact _ hmem]
  have htake : List.takeWhile (fun c => c != '\n') (List.replicate 1500 'a') =
      List.replicate 1500 'a' :=
    List.takeWhile_eq_self_iff.mpr
      (fun x hx => by rw [List.eq_of_mem_replicate hx]; decide)
  have hdrop : List.dropWhile (fun c => c != '\n') (List.replicate 1500 'a') = [] :=
    List.dropWhile_eq_nil_iff.mpr
      (fun x hx => by rw [List.eq_of_mem_replicate hx]; decide)
  have ht1 : List.takeWhile (fun c => c != '\n') ['\n'] = [] := rfl
  have hd1 : List.dropWhile (fun c => c != '\n') ['\n'] = ['\n'] := rfl
  rw [List.takeWhile_append, List.dropWhile_append, htake, hdrop, if_pos rfl,
    ht1, hd1, List.append_nil]
  rfl

/-! ## Claim C10 -/

/-- C10: at end-of-stream after some characters of an unterminated
line, `lsh_read_line` does `exit(EXIT_SUCCESS)`: the partial line is
discarded, the loop iteration ends the whole process with the success
code, and nothing reaches the tokenizer or dispatcher (the state shows
only the prompt). -/
theorem C10_partial_line_discarded (input : List Char) (h : '\n' ∉ input) :
    lsh_read_line (fun _ => true) input = .error .success ∧
    (∀ aT d sp st, lsh_loop (fun _ _ => true) aT d sp input st =
      some (.success, addStdout st "> ")) := by
  have hr : lsh_read_line (fun _ => true) input = .error .success := by
    rw [lsh_read_line_allTrue, if_neg h]
  refine ⟨hr, fun aT d sp st => ?_⟩
  rw [lsh_loop, lsh_loop_fuel_succ]
  simp only [hr]

/-- Witness for C10: a four-character unterminated final line. -/
theorem C10_partial_line_discarded_witness :
    '\n' ∉ ['p', 'a', 'r', 't'] ∧
    lsh_read_line (fun _ => true) ['p', 'a', 'r', 't'] = .error .success :=
  ⟨by decide, (C10_partial_line_discarded ['p', 'a', 'r', 't'] (by decide)).1⟩

/-! ## Lemmas about the Dispatcher and the Launcher -/

/-- A concrete state shared by the witnesses below. -/
def st0 : ShellState := ⟨"/", [], []⟩

theorem lsh_cd_fst (d : String → Bool) (args : List String) (st : ShellState) :
    (lsh_cd d args st).1 = 1 := by
  rw [lsh_cd]
  cases args.get? 1 with
  | none => rfl
  | some dir =>
    dsimp only
    split <;> rfl

theorem waitLoop_terminal (waits : List WaitStatus) (s : WaitStatus)
    (h : waitLoop waits = some s) : (WIFEXITED s || WIFSIGNALED s) = true := by
  induction waits with
  | nil => cases h
  | cons w ws ih =>
    rw [waitLoop] at h
    split at h
    · exact ih h
    next hcond =>
      obtain rfl : w = s := Option.some.inj h
      cases w with
      | exited code => rfl
      | signaled sig => rfl
      | stopped sig => exact absurd rfl hcond

theorem lsh_launch_fst (sp : SpawnBehavior) (args : List String) (st : ShellState)
    (r : Int × ShellState) (h : lsh_launch sp args st = some r) : r.1 = 1 := by
  cases sp with
  | forkFailed =>
    obtain rfl : r = (1, addStderr st perror_lsh) := (Option.some.inj h).symm
    rfl
  | execFailed =>
    obtain rfl : r = (1, addStderr st perror_lsh) := (Option.some.inj h).symm
    rfl
  | ran waits =>
    rw [lsh_launch] at h
    cases hw : waitLoop waits with
    | none => rw [hw] at h; cases h
    | some s =>
      rw [hw] at h
      obtain rfl : r = (1, st) := (Option.some.inj h).symm
      rfl

/-- Unfolding of `lsh_execute` at a nonempty argument list. -/
theorem lsh_execute_cons (d : String → Bool) (sp : SpawnBehavior) (cmd : String)
    (rest : List String) (st : ShellState) :
    lsh_execute d sp (cmd :: rest) st =
      (match (builtin_str.zip (builtin_func d)).find? (fun p => p.1 == cmd) with
       | some p => some (p.2 (cmd :: rest) st)
       | none => lsh_launch sp (cmd :: rest) st) := rfl

/-- A command name that matches no builtin is dispatched to the
launcher. -/
theorem lsh_execute_not_builtin (d : String → Bool) (sp : SpawnBehavior)
    (cmd : String) (rest : List String) (st : ShellState)
    (h1 : cmd ≠ "cd") (h2 : cmd ≠ "help") (h3 : cmd ≠ "exit") :
    lsh_execute d sp (cmd :: rest) st = lsh_launch sp (cmd :: rest) st := by
  have e1 : ("cd" == cmd) = false := beq_eq_false_iff_ne.mpr (fun h => h1 h.symm)
  have e2 : ("help" == cmd) = false := beq_eq_false_iff_ne.mpr (fun h => h2 h.symm)
  have e3 : ("exit" == cmd) = false := beq_eq_false_iff_ne.mpr (fun h => h3 h.symm)
  rw [lsh_execute_cons]
  simp [builtin_str, builtin_func, List.find?, e1, e2, e3]

/-! ## Claim C2 -/

/-- C2: the dispatcher returns 1 (`Continue`) for every argument list
whose first token is not "exit": the empty list is a no-op leaving the
state untouched, builtins other than `exit` return 1, and external
commands — whatever their spawn or wait outcome — return 1 whenever the
launcher returns at all (a spawn failure in particular still returns). -/
theorem C2_execute_continue :
    (∀ d sp st, lsh_execute d sp [] st = some (1, st)) ∧
    (∀ d sp args st r, args.head? ≠ some "exit" →
      lsh_execute d sp args st = some r → r.1 = 1) ∧
    (∀ d args st, args ≠ [] →
      (lsh_execute d .forkFailed args st).isSome = true) := by
  refine ⟨fun d sp st => rfl, ?_, ?_⟩
  · intro d sp args st r hne h
    match args with
    | [] =>
      rw [show lsh_execute d sp [] st = some ((1 : Int), st) from rfl] at h
      obtain rfl : r = (1, st) := (Option.some.inj h).symm
      rfl
    | cmd :: rest =>
      have h3 : cmd ≠ "exit" := fun he => hne (by rw [he]; rfl)
      by_cases h1 : cmd = "cd"
      · subst h1
        rw [show lsh_execute d sp ("cd" :: rest) st =
            some (lsh_cd d ("cd" :: rest) st) from rfl] at h
        obtain rfl : r = lsh_cd d ("cd" :: rest) st := (Option.some.inj h).symm
        exact lsh_cd_fst d _ st
      · by_cases h2 : cmd = "help"
        · subst h2
          rw [show lsh_execute d sp ("help" :: rest) st =
              some (lsh_help ("help" :: rest) st) from rfl] at h
          obtain rfl : r = lsh_help ("help" :: rest) st := (Option.some.inj h).symm
          rfl
        · rw [lsh_execute_not_builtin d sp cmd rest st h1 h2 h3] at h
          exact lsh_launch_fst sp _ st r h
  · intro d args st hne
    match args with
    | [] => exact absurd rfl hne
    | cmd :: rest =>
      by_cases h1 : cmd = "cd"
      · subst h1; rfl
      · by_cases h2 : cmd = "help"
        · subst h2; rfl
        · by_cases h3 : cmd = "exit"
          · subst h3; rfl
          · rw [lsh_execute_not_builtin d .forkFailed cmd rest st h1 h2 h3]
            rfl

/-- Witness for C2: the external command `nosuch` under a fork failure
still yields 1 (`Continue`). -/
theorem C2_execute_continue_witness :
    (["nosuch"].head? ≠ some "exit") ∧
    ((1 : Int), addStderr st0 perror_lsh).1 = 1 :=
  ⟨by decide,
   C2_execute_continue.2.1 (fun _ => true) .forkFailed ["nosuch"] st0
     (1, addStderr st0 perror_lsh) (by decide) rfl⟩

/-! ## Claim C3 -/

/-- C3: after a successful spawn the wait loop returns only once the
child has exited or been signaled: any status it hands back satisfies
`WIFEXITED || WIFSIGNALED`, a merely-stopped child makes the loop
re-wait, and whenever `lsh_launch` returns after a successful fork,
the observed wait sequence did reach such a terminal state. -/
theorem C3_wait_until_terminal :
    (∀ waits s, waitLoop waits = some s → (WIFEXITED s || WIFSIGNALED s) = true) ∧
    (∀ sig waits, waitLoop (WaitStatus.stopped sig :: waits) = waitLoop waits) ∧
    (∀ args st waits r, lsh_launch (.ran waits) args st = some r →
      ∃ s, waitLoop waits = some s ∧ (WIFEXITED s || WIFSIGNALED s) = true) := by
  refine ⟨waitLoop_terminal, fun sig waits => rfl, ?_⟩
  intro args st waits r h
  rw [lsh_launch] at h
  cases hw : waitLoop waits with
  | none => rw [hw] at h; cases h
  | some s => exact ⟨s, rfl, waitLoop_terminal waits s hw⟩

/-- Witness for C3: a child first reported stopped, then killed by
signal 9; the loop skips the stop and returns the terminal status. -/
theorem C3_wait_until_terminal_witness :
    (WIFEXITED (WaitStatus.signaled 9) || WIFSIGNALED (WaitStatus.signaled 9)) = true :=
  C3_wait_until_terminal.1 [WaitStatus.stopped 19, WaitStatus.signaled 9]
    (WaitStatus.signaled 9) rfl

/-! ## Claim C4 -/

/-- C4: a spawn failure — `fork` failing outright, or `execvp` unable
to find or start the program (the child then reports and exits, as for
`doesnotexist123`) — is reported on stderr and `lsh_execute` still
returns 1 (`Continue`): the parent shell neither terminates nor
crashes. -/
theorem C4_spawn_failed_continue (d : String → Bool) (st : ShellState) :
    lsh_execute d .forkFailed ["doesnotexist123"] st =
      some (1, addStderr st perror_lsh) ∧
    lsh_execute d .execFailed ["doesnotexist123"] st =
      some (1, addStderr st perror_lsh) := ⟨rfl, rfl⟩

/-! ## Claim C5 -/

/-- C5: any argument list whose first token is "exit" is dispatched to
`lsh_exit`, which returns 0 (`Terminate`) unconditionally — every
further argument is ignored and the state is untouched. -/
theorem C5_exit_terminate (d : String → Bool) (sp : SpawnBehavior)
    (rest : List String) (st : ShellState) :
    lsh_execute d sp ("exit" :: rest) st = some (0, st) := rfl

/-! ## Claim C7 -/

/-- C7: dispatching `["cd"]` (no second argument) emits the usage error
on stderr, returns 1 (`Continue`), and leaves the working directory
unchanged — the resulting state differs from the input state only by
the appended stderr line. -/
theorem C7_cd_missing_arg (d : String → Bool) (sp : SpawnBehavior)
    (st : ShellState) :
    lsh_execute d sp ["cd"] st = some (1, addStderr st cd_usage_err) ∧
    (addStderr st cd_usage_err).cwd = st.cwd ∧
    (addStderr st cd_usage_err).stdoutOut = st.stdoutOut ∧
    (addStderr st cd_usage_err).stderrOut = st.stderrOut ++ [cd_usage_err] :=
  ⟨rfl, rfl, rfl, rfl⟩

/-! ## Lemmas about the Tokenizer -/

theorem modifyHead_id_eq (l : List (List Char)) : l.modifyHead (fun t => t) = l := by
  cases l <;> rfl

/-- The `strtok` accumulator characterised through `List.splitOnP`:
split at every delimiter, then discard the empty chunks. -/
theorem strtokAux_eq (line : List Char) :
    ∀ cur : List Char,
    strtokAux line cur =
      ((line.splitOnP isDelim).modifyHead (fun t => cur.reverse ++ t)).filter
        (fun t => !t.isEmpty) := by
  induction line with
  | nil =>
    intro cur
    by_cases hc : cur = []
    · subst hc; rfl
    · have h1 : cur.isEmpty = false := by
        cases cur with
        | nil => exact absurd rfl hc
        | cons a l => rfl
      have h2 : cur.reverse.isEmpty = false := by
        cases hrev : cur.reverse with
        | nil => exact absurd (List.reverse_eq_nil_iff.mp hrev) hc
        | cons a l => rfl
      rw [strtokAux, List.splitOnP_nil]
      simp [h1, h2, List.filter_cons]
  | cons c rest ih =>
    intro cur
    by_cases hd : isDelim c
    · rw [strtokAux, if_pos hd, List.splitOnP_cons, if_pos hd, ih []]
      simp only [List.reverse_nil, List.nil_append, modifyHead_id_eq]
      by_cases hc : cur = []
      · subst hc; simp [List.filter_cons]
      · have h2 : cur.reverse.isEmpty = false := by
          cases hrev : cur.reverse with
          | nil => exact absurd (List.reverse_eq_nil_iff.mp hrev) hc
          | cons a l => rfl
        have h1 : cur.isEmpty = false := by
          cases cur with
          | nil => exact absurd rfl hc
          | cons a l => rfl
        simp [h1, h2, List.filter_cons]
    · rw [strtokAux, if_neg hd, List.splitOnP_cons, if_neg hd, ih (c :: cur),
        List.modifyHead_modifyHead]
      congr 2
      funext t
      show (c :: cur).reverse ++ t = cur.reverse ++ (c :: t)
      rw [List.reverse_cons, List.append_assoc, List.singleton_append]

/-- The token stream of `lsh_split_line`, via `splitOnP`: delimiters
discarded, order preserved, consecutive delimiters collapsed (empty
chunks dropped). -/
theorem strtokAll_eq (line : List Char) :
    strtokAll line = (line.splitOnP isDelim).filter (fun t => !t.isEmpty) := by
  rw [strtokAll, strtokAux_eq line []]
  simp only [List.reverse_nil, List.nil_append, modifyHead_id_eq]

theorem strtokAux_all_delim (line : List Char) (h : ∀ c ∈ line, isDelim c = true) :
    strtokAux line [] = [] := by
  induction line with
  | nil => rfl
  | cons c rest ih =>
    rw [strtokAux, if_pos (h c (List.mem_cons_self c rest))]
    exact ih (fun x hx => h x (List.mem_cons_of_mem c hx))

theorem splitAllocLoop_allTrue (tokens : List (List Char)) :
    ∀ position bufsize ai,
    splitAllocLoop (fun _ => true) tokens position bufsize ai = .ok () := by
  induction tokens with
  | nil => intro position bufsize ai; rfl
  | cons t ts ih =>
    intro position bufsize ai
    rw [splitAllocLoop]
    simp only []
    split
    · exact ih _ _ _
    · exact ih _ _ _

/-- Running `lsh_split_line` with no allocation failure, characterised through
`splitOnP`. -/
theorem lsh_split_line_allTrue (line : List Char) :
    lsh_split_line (fun _ => true) line =
      .ok (((line.splitOnP isDelim).filter (fun t => !t.isEmpty)).map
        (fun t => String.mk t)) := by
  rw [lsh_split_line, if_pos rfl, splitAllocLoop_allTrue]
  rw [strtokAll_eq]

/-! ## Claim C6 -/

/-- C6: the tokenizer discards whitespace delimiters, keeps token order
(`splitOnP` characterisation), never produces an empty token, returns
the empty list on a blank or all-whitespace line, and on the spec's
examples: `""` and `"   "` give `[]`, `"a  b\tc"` gives
`["a","b","c"]`. -/
theorem C6_split_line (line : List Char) :
    lsh_split_line (fun _ => true) line =
      .ok (((line.splitOnP isDelim).filter (fun t => !t.isEmpty)).map
        (fun t => String.mk t)) ∧
    (∀ args, lsh_split_line (fun _ => true) line = .ok args →
      ∀ t ∈ args, t ≠ "") ∧
    ((∀ c ∈ line, isDelim c = true) →
      lsh_split_line (fun _ => true) line = .ok []) ∧
    lsh_split_line (fun _ => true) ([] : List Char) = .ok [] ∧
    lsh_split_line (fun _ => true) ("   ".toList) = .ok [] ∧
    lsh_split_line (fun _ => true) ("a  b\tc".toList) = .ok ["a", "b", "c"] := by
  refine ⟨lsh_split_line_allTrue line, ?_, ?_, rfl, rfl, rfl⟩
  · intro args h t ht
    rw [lsh_split_line_allTrue] at h
    obtain rfl := (Except.ok.inj h).symm
    obtain ⟨l, hl, rfl⟩ := List.mem_map.mp ht
    have hne : l.isEmpty = false := by
      have := List.of_mem_filter hl
      cases he : l.isEmpty
      · rfl
      · rw [he] at this; cases this
    intro hcontra
    have : l = [] := by
      have hdata : (String.mk l).data = ("" : String).data := by rw [hcontra]
      exact hdata
    rw [this] at hne
    cases hne
  · intro hall
    rw [lsh_split_line, if_pos rfl,
      show strtokAll line = [] from strtokAux_all_delim line hall]
    rfl

/-- Witness for C6: the spec's collapsing example. -/
theorem C6_split_line_witness :
    lsh_split_line (fun _ => true) ("a  b\tc".toList) = .ok ["a", "b", "c"] :=
  (C6_split_line ("a  b\tc".toList)).2.2.2.2.2

/-! ## Claim C8 -/

/-- A line of 64 one-character tokens: enough to fill the initial
64-entry token array of `lsh_split_line` and force a growth `realloc`. -/
def tok64Line : List Char := List.flatten (List.replicate 64 ['a', ' ']) ++ ['\n']

/-- Tokenizing `n` copies of "a " yields `n` tokens `"a"`. -/
theorem strtokAll_aa (n : Nat) :
    strtokAll (List.flatten (List.replicate n ['a', ' '])) =
      List.replicate n ['a'] := by
  rw [strtokAll]
  induction n with
  | zero => rfl
  | succ k ih =>
    rw [List.replicate_succ, List.flatten_cons]
    show strtokAux ('a' :: ' ' :: List.flatten (List.replicate k ['a', ' '])) [] = _
    rw [strtokAux, if_neg (by decide), strtokAux, if_pos (by decide),
      if_neg (by decide : ¬ (['a'] : List Char).isEmpty = true), ih,
      List.replicate_succ]
    rfl

/-- If the token array's capacity will be reached by the tokens still
to store and the oracle refuses the growth `realloc`, `lsh_split_line`
does `exit(EXIT_FAILURE)`. -/
theorem splitAllocLoop_growth_fail (allocOk : Nat → Bool) :
    ∀ (tokens : List (List Char)) position bufsize ai,
    bufsize = position + tokens.length → tokens ≠ [] → allocOk ai = false →
    splitAllocLoop allocOk tokens position bufsize ai = .error .failure := by
  intro tokens
  induction tokens with
  | nil => intro _ _ _ _ hne _; exact absurd rfl hne
  | cons t ts ih =>
    intro position bufsize ai hb _ hfail
    rw [splitAllocLoop]
    cases ts with
    | nil =>
      have h1 : bufsize = position + 1 := by simpa using hb
      rw [if_pos (by omega), hfail]
      simp
    | cons u us =>
      simp only [List.length_cons] at hb
      rw [if_neg (by omega)]
      exact ih (position + 1) bufsize ai
        (by simp only [List.length_cons]; omega) (by simp) hfail

/-- C8: the process ends with `EXIT_SUCCESS` on clean end-of-input and
on the `exit` builtin, and ends at once with `EXIT_FAILURE` when a
buffer-growth allocation fails in the Line Reader (line past the
1024-char capacity) or in the Tokenizer (more than 64 tokens).  The
oracle `fun _ ai => ai == 0` grants only the initial `malloc`
(allocation index 0) and refuses every growth `realloc`. -/
theorem C8_exit_codes :
    (∀ aT d sp st, lsh_loop (fun _ _ => true) aT d sp [] st =
      some (.success, addStdout st "> ")) ∧
    (∀ d sp st, lsh_loop (fun _ _ => true) (fun _ _ => true) d sp
      ("exit\n".toList) st = some (.success, addStdout st "> ")) ∧
    (∀ aT d sp st, lsh_loop (fun _ ai => ai == 0) aT d sp
      (List.replicate 1024 'a' ++ ['\n']) st =
      some (.failure, addStdout st "> ")) ∧
    (∀ d sp st, lsh_loop (fun _ _ => true) (fun _ ai => ai == 0) d sp
      tok64Line st = some (.failure, addStdout st "> ")) := by
  refine ⟨fun aT d sp st => rfl, fun d sp st => rfl, ?_, ?_⟩
  · intro aT d sp st
    have hr : lsh_read_line (fun ai => ai == 0)
        (List.replicate 1024 'a' ++ ['\n']) = .error .failure := by
      rw [lsh_read_line,
        if_pos (show ((fun ai : Nat => ai == 0) 0) = true from rfl)]
      exact lsh_read_line_loop_growth_fail (fun ai => ai == 0)
        (List.replicate 1024 'a') ['\n'] 1 LSH_RL_BUFSIZE 0 []
        (by rw [List.length_replicate]; rfl)
        (List.ne_nil_of_length_pos (by rw [List.length_replicate]; omega))
        (fun h => absurd (List.eq_of_mem_replicate h) (by decide))
        rfl
    rw [lsh_loop, lsh_loop_fuel_succ]
    simp only [hr]
  · intro d sp st
    have hall : ∀ x ∈ List.flatten (List.replicate 64 ['a', ' ']),
        (x != '\n') = true := by
      intro x hx
      obtain ⟨l, hl, hxl⟩ := List.mem_flatten.mp hx
      rw [List.eq_of_mem_replicate hl] at hxl
      cases hxl with
      | head => decide
      | tail _ h2 =>
        cases h2 with
        | head => decide
        | tail _ h3 => cases h3
    have hmem : '\n' ∈ tok64Line :=
      List.mem_append_right _ (List.mem_singleton.mpr rfl)
    have hr : lsh_read_line (fun _ => true) tok64Line =
        .ok (List.flatten (List.replicate 64 ['a', ' ']), []) := by
      rw [lsh_read_line_allTrue, if_pos hmem]
      rw [show tok64Line =
        List.flatten (List.replicate 64 ['a', ' ']) ++ ['\n'] from rfl]
      have ht1 : List.takeWhile (fun c => c != '\n') ['\n'] = [] := rfl
      have hd1 : List.dropWhile (fun c => c != '\n') ['\n'] = ['\n'] := rfl
      rw [List.takeWhile_append, List.dropWhile_append,
        List.takeWhile_eq_self_iff.mpr hall, List.dropWhile_eq_nil_iff.mpr hall,
        if_pos rfl, ht1, hd1, List.append_nil]
      rfl
    have hs : lsh_split_line (fun ai => ai == 0)
        (List.flatten (List.replicate 64 ['a', ' '])) = .error .failure := by
      rw [lsh_split_line,
        if_pos (show ((fun ai => ai == 0) 0) = true from rfl),
        strtokAll_aa,
        splitAllocLoop_growth_fail (fun ai => ai == 0) (List.replicate 64 ['a'])
          0 LSH_TOK_BUFSIZE 1 (by rw [List.length_replicate]; rfl)
          (List.ne_nil_of_length_pos (by rw [List.length_replicate]; omega)) rfl]
    rw [lsh_loop, lsh_loop_fuel_succ]
    simp only [hr, hs]

/-! ## Claim C9 -/

theorem white_list_returned (listFile : Option (List String)) (ip : String)
    (v : Int) (h : white_list listFile ip = .returned v) : v = 0 ∨ v = 1 := by
  cases listFile with
  | none => cases h
  | some lines =>
    rw [white_list] at h
    split at h
    · exact Or.inl (GateResult.returned.inj h).symm
    · exact Or.inr (GateResult.returned.inj h).symm

/-- C9: `main` runs the IP whitelist, the already-running check and the
credential login, in that order, before `lsh_loop`; the loop is reached
exactly when the whitelist returned 0, the logon check did not return 1
and the credentials matched — any denial makes the process exit before
the loop starts. -/
theorem C9_gate_before_loop (listFile : Option (List String)) (ip : String)
    (procLshCount : Option Nat) (data_id data_pw input_id : String)
    (input_pw : List Char) (aL aT : Nat → Nat → Bool) (d : String → Bool)
    (sp : Nat → SpawnBehavior) (input : List Char) (st : ShellState) :
    (∃ r, main_model listFile ip procLshCount data_id data_pw input_id input_pw
        aL aT d sp input st = .loopRun r) ↔
      (white_list listFile ip = .returned 0 ∧
       check_logon procLshCount ≠ 1 ∧
       data_id = input_id ∧ data_pw = enc_str_pw input_pw) := by
  constructor
  · rintro ⟨r, h⟩
    rw [main_model] at h
    split at h
    · cases h
    next v hw =>
      by_cases hv : v = 1
      · rw [if_pos hv] at h; cases h
      · rw [if_neg hv] at h
        have hv0 : v = 0 := by
          rcases white_list_returned listFile ip v hw with h0 | h1
          · exact h0
          · exact absurd h1 hv
        subst hv0
        by_cases hcl : check_logon procLshCount = 1
        · rw [if_pos hcl] at h; cases h
        · rw [if_neg hcl] at h
          split at h
          next c hlg =>
            cases h
          next v2 hlg =>
            rw [login] at hlg
            by_cases hc2 : data_id = input_id ∧ data_pw = enc_str_pw input_pw
            · exact ⟨hw, hcl, hc2.1, hc2.2⟩
            · rw [if_neg hc2] at hlg; cases hlg
  · rintro ⟨hw, hcl, hid, hpw⟩
    refine ⟨lsh_loop aL aT d sp input st, ?_⟩
    simp only [main_model, hw]
    rw [if_neg (by omega : ¬ (0 : Int) = 1), if_neg hcl, login,
      if_pos ⟨hid, hpw⟩]

/-- Witness for C9: a whitelisted client, one running `lsh`, matching
credentials — the loop is reached. -/
theorem C9_gate_before_loop_witness :
    ∃ r, main_model (some ["10.0.0.5"]) "10.0.0.5" (some 1) "admin" "" "admin"
      [] (fun _ _ => true) (fun _ _ => true) (fun _ => true)
      (fun _ => SpawnBehavior.ran [WaitStatus.exited 0]) [] st0 = .loopRun r :=
  (C9_gate_before_loop (some ["10.0.0.5"]) "10.0.0.5" (some 1) "admin" ""
      "admin" [] (fun _ _ => true) (fun _ _ => true) (fun _ => true)
      (fun _ => SpawnBehavior.ran [WaitStatus.exited 0]) [] st0).mpr
    ⟨rfl, by decide, rfl, rfl⟩

end Lsh
